import Mathlib

set_option maxHeartbeats 4000000
set_option synthInstance.maxHeartbeats 2000000

/-!
Shallow embedding of `src/main.rs` of the bikemonkey2 repository.

Rust `&str` values are modelled as `List Char` (`Str`), so that every
operation is structurally recursive and kernel-evaluable.  Rust `u64`
arithmetic is modelled as `Nat` with explicit wrapping modulo `2 ^ 64`
(release-profile overflow semantics).  A Rust panic (out-of-bounds slice
indexing) is an explicit `PResult.panic` outcome, distinct from the
recoverable `serde` error values (`PResult.err`, carrying the static part
of the source's formatted message; the `{:?}` payload is elided).
-/

/-- Rust `&str`, modelled as its character list. -/
abbrev Str : Type := List Char

/-- Character list of a Lean string literal (used to write `Str` constants). -/
def str (s : String) : Str := s.data

/-- Outcome of a fallible Rust computation: `ok`, a recoverable `Err`
(`serde::de::Error::custom`), or a process-aborting panic. -/
inductive PResult (α : Type) where
  | ok (val : α)
  | err (msg : String)
  | panic (msg : String)
deriving DecidableEq, Repr

/-- `Result::map`. -/
def PResult.map {α β : Type} (f : α → β) : PResult α → PResult β
  | .ok v => .ok (f v)
  | .err m => .err m
  | .panic m => .panic m

/-- The `?` operator: propagate `err` (and a panic aborts everything). -/
def PResult.bind {α β : Type} : PResult α → (α → PResult β) → PResult β
  | .ok v, f => f v
  | .err m, _ => .err m
  | .panic m, _ => .panic m

/-- `Option::ok_or` followed by `?`, as used throughout `Rider::from_value`. -/
def okOr {α : Type} (o : Option α) (msg : String) : PResult α :=
  match o with
  | some a => .ok a
  | none => .err msg

/-- The `Course` enum of `src/main.rs` (note the source's spelling
`Piccollo`).  There is no `Family` variant: the family category is
rejected during parsing and is not representable. -/
inductive Course where
  | IlRegno
  | Gran
  | Medio
  | Piccollo
deriving DecidableEq, Repr

/-- The `Gender` enum of `src/main.rs`. -/
inductive Gender where
  | Male
  | Female
deriving DecidableEq, Repr

/-- Rust `str::split` for a single-character separator: `"" ↦ [""]`,
separators delimit possibly-empty fields. -/
def rsplit (sep : Char) : Str → List Str
  | [] => [[]]
  | c :: rest =>
    match rsplit sep rest with
    | [] => [[]]
    | h :: t => if c = sep then [] :: h :: t else (c :: h) :: t

/-- Rust `str::parse::<u64>()`: an optional leading `+`, then one or more
ASCII digits, value below `2 ^ 64`; anything else is a parse error. -/
def parseU64 (s : Str) : Option Nat :=
  let t : Str :=
    match s with
    | '+' :: rest => rest
    | _ => s
  if t = [] then none
  else if t.all Char.isDigit then
    let n : Nat := t.foldl (fun acc c => acc * 10 + (c.toNat - 48)) 0
    if n < 2 ^ 64 then some n else none
  else none

/-- `parse_duration` of `src/main.rs` (lines 60–71): split on `:`, keep the
components that parse as `u64`, require exactly three, and combine them with
wrapping `u64` arithmetic as `h*60*60 + m*60 + s` seconds. -/
def parse_duration (s : Str) : PResult Nat :=
  let components : List Nat := (rsplit ':' s).filterMap parseU64
  if components.length = 3 then
    .ok ((((components[0]! * 60 % 2 ^ 64) * 60 % 2 ^ 64 + components[1]! * 60 % 2 ^ 64)
        % 2 ^ 64 + components[2]!) % 2 ^ 64)
  else .err "bad duration"

/-- The course-selection `match s[0]` of `parse_course` (lines 75–95).
Returns the `idx` accumulated inside the match, the course, and the
fort-ross flag.  `s[1]` in the `GRAN` arm is unconditional in the source,
so a single-token vector panics there; `s[0]` panics on an empty vector. -/
def courseStep (s : List Str) : PResult (Nat × Course × Bool) :=
  match s.get? 0 with
  | none => .panic "index out of bounds"
  | some t0 =>
    if t0 = str "IL" then
      if s.length < 3 then .err "bad route"
      else .ok (1, Course.IlRegno, false)
    else if t0 = str "PICCOLO" then .ok (0, Course.Piccollo, false)
    else if t0 = str "MEDIO" then .ok (0, Course.Medio, false)
    else if t0 = str "GRAN" then
      match s.get? 1 with
      | none => .panic "index out of bounds"
      | some t1 =>
        if t1 = str "Fort" then .ok (2, Course.Gran, true)
        else .ok (0, Course.Gran, false)
    else if t0 = str "FAMILY" then .err "don't deal with families"
    else .err "unknown course"

/-- The sub-event step of `parse_course` (lines 97–106): an in-bounds token
`"WC"` sets the willow-creek flag, `"TANDEM"` is consumed without setting
anything; returns the flag and the updated index. -/
def subEventStep (s : List Str) (idx : Nat) : Bool × Nat :=
  match s.get? idx with
  | some t =>
    if t = str "WC" then (true, idx + 1)
    else if t = str "TANDEM" then (false, idx + 1)
    else (false, idx)
  | none => (false, idx)

/-- The gender `match` of `parse_course` (lines 108–112), applied to the
remaining token if the index is still in bounds. -/
def genderOf (t : Option Str) : PResult Gender :=
  match t with
  | some g =>
    if g = str "Male" then .ok Gender.Male
    else if g = str "Female" then .ok Gender.Female
    else .err "bad gender"
  | none => .ok Gender.Male

/-- `parse_course` of `src/main.rs` (lines 73–115): course selection, the
unconditional `idx += 1`, the sub-event step, then the gender match.
Returns `(course, willow_creek, fort_ross, gender)`. -/
def parse_course (s : List Str) : PResult (Course × Bool × Bool × Gender) :=
  (courseStep s).bind fun step =>
    let idx : Nat := step.1 + 1
    let wcIdx : Bool × Nat := subEventStep s idx
    (genderOf (s.get? wcIdx.2)).map fun gender =>
      (step.2.1, wcIdx.1, step.2.2, gender)

/-- A `serde_json::Value`, restricted to the shapes the program inspects
(numbers are modelled as integers: `as_u64` only ever succeeds on
non-negative integral numbers). -/
inductive JValue where
  | null
  | boolv (b : Bool)
  | num (n : Int)
  | strv (s : Str)
  | arr (elems : List JValue)
  | obj (fields : List (Str × JValue))

/-- First binding of a key in a JSON object's field list. -/
def lookupField : List (Str × JValue) → Str → Option JValue
  | [], _ => none
  | (k, v) :: rest, key => if k = key then some v else lookupField rest key

/-- `serde_json`'s `v["key"]` on a shared `Value`: the bound value in an
object, `Null` for a missing key or a non-object. -/
def JValue.index (v : JValue) (key : Str) : JValue :=
  match v with
  | .obj fields => (lookupField fields key).getD JValue.null
  | _ => JValue.null

/-- `Value::as_str`. -/
def JValue.as_str : JValue → Option Str
  | .strv s => some s
  | _ => none

/-- `Value::as_u64`. -/
def JValue.as_u64 : JValue → Option Nat
  | .num n => if 0 ≤ n ∧ n < 2 ^ 64 then some n.toNat else none
  | _ => none

/-- The `Rider` struct of `src/main.rs`. -/
structure Rider where
  firstname : Str
  lastname : Str
  elapsedtime : Nat
  displaytime : Str
  gender : Gender
  course : Course
  willow_creek : Bool
  fort_ross : Bool
  bib : Nat
  _id : Str
deriving DecidableEq, Repr

/-- `Rider::from_value` (lines 117–157): field checks in source order,
the empty-names rejection, duration and route parsing, then construction. -/
def Rider.from_value (v : JValue) : PResult Rider :=
  (okOr (v.index (str "firstname")).as_str "bad firstname").bind fun firstname =>
  (okOr (v.index (str "lastname")).as_str "bad lastname").bind fun lastname =>
  if firstname = [] ∧ lastname = [] then .err "No riders with no name!"
  else
  (okOr (v.index (str "elapsedtime")).as_str "bad time").bind fun t =>
  (parse_duration t).bind fun time =>
  (okOr (v.index (str "route")).as_str "bad course").bind fun routeText =>
  (parse_course (rsplit ' ' routeText)).bind fun cg =>
  (okOr (v.index (str "bib")).as_u64 "bad bibno").bind fun bib =>
  (okOr (v.index (str "_id")).as_str "bad id").map fun id =>
  { firstname := firstname, lastname := lastname, elapsedtime := time,
    displaytime := t, gender := cg.2.2.2, course := cg.1,
    willow_creek := cg.2.1, fort_ross := cg.2.2.1, bib := bib, _id := id }

/-- The record pipeline of `Bikemonkey::from_json` (lines 200–209):
`map(Rider::from_value)` then `filter_map(|r| r.ok())`, left to right.  A
recoverable error drops the record; a panic unwinds the whole batch. -/
def collectRiders : List JValue → PResult (List Rider)
  | [] => .ok []
  | v :: rest =>
    match Rider.from_value v with
    | .panic m => .panic m
    | .err _ => collectRiders rest
    | .ok r => (collectRiders rest).map fun rs => r :: rs

/-- The `FilterOptions` struct of `src/main.rs`. -/
structure FilterOptions where
  courses : Option (List Course)
  gender : Option Gender
  debug : Bool
  firstname : Option Str
  lastname : Option Str
deriving DecidableEq, Repr

/-- The retention closure inside `Bikemonkey::filter_riders`
(lines 219–232): course must lie in the criteria's course list when one is
given, gender must equal the criteria's gender when one is given. -/
def riderPassesFilter (opts : FilterOptions) (r : Rider) : Bool :=
  (match opts.courses with
   | some courses => decide (r.course ∈ courses)
   | none => true)
  &&
  (match opts.gender with
   | some g => decide (r.gender = g)
   | none => true)

/-- The filtering half of `Bikemonkey::filter_riders` (lines 217–233),
before the sort. -/
def filter_riders_retained (riders : List Rider) (opts : FilterOptions) : List Rider :=
  riders.filter (riderPassesFilter opts)

/-- The whole of `Bikemonkey::filter_riders` (lines 216–236), with the final
`sort_unstable_by_key(|r| r.elapsedtime)` modelled by its contract: the
output is some permutation of the retained records that is sorted by
elapsed time.  The contract does not promise stability (`sort_unstable`
is documented to possibly reorder equal elements), so every sorted
permutation is an admissible output. -/
def IsFilterRidersOutput (riders : List Rider) (opts : FilterOptions)
    (out : List Rider) : Prop :=
  List.Perm (filter_riders_retained riders opts) out ∧
  List.Sorted (fun a b => a.elapsedtime ≤ b.elapsedtime) out

instance (riders : List Rider) (opts : FilterOptions) (out : List Rider) :
    Decidable (IsFilterRidersOutput riders opts out) := by
  unfold IsFilterRidersOutput
  infer_instance

/-- Unicode default case folding (C-type), modelled from the `caseless`
crate dependency, restricted to the characters this development uses: the
ASCII uppercase letters fold to lowercase, `Í` (U+00CD) folds to `í`
(U+00ED), everything else is fixed. -/
def caseFoldChar (c : Char) : Str :=
  if c = 'Í' then ['í']
  else if 'A' ≤ c ∧ c ≤ 'Z' then [Char.ofNat (c.toNat + 32)]
  else [c]

/-- Unicode canonical decomposition (NFD), restricted likewise: `Í` and `í`
decompose to the base letter followed by the combining acute accent U+0301;
ASCII is its own decomposition.  (Canonical reordering of combining marks
never fires on these characters.) -/
def nfdChar (c : Char) : Str :=
  if c = 'Í' then ['I', Char.ofNat 769]
  else if c = 'í' then ['i', Char.ofNat 769]
  else [c]

/-- NFD of a string, character by character. -/
def nfd (s : Str) : Str := s.flatMap nfdChar

/-- Default case fold of a string. -/
def defaultCaseFold (s : Str) : Str := s.flatMap caseFoldChar

/-- `caseless::canonical_caseless_match_str`: canonical caseless equality,
i.e. equality of `nfd (fold (nfd ·))` of the two strings.  Case is erased;
accents are not: the combining marks produced by NFD survive folding. -/
def canonicalCaselessMatch (a b : Str) : Bool :=
  decide (nfd (defaultCaseFold (nfd a)) = nfd (defaultCaseFold (nfd b)))

/-- The name-matching closure of `Bikemonkey::print_info` (lines 262–278):
when a first-name search term is present the rider's stored first name must
canonically-caselessly match it, and likewise for the last name; both
constraints apply when both terms are present. -/
def nameMatchesFilter (opts : FilterOptions) (r : Rider) : Bool :=
  (match opts.firstname with
   | some name => canonicalCaselessMatch r.firstname name
   | none => true)
  &&
  (match opts.lastname with
   | some name => canonicalCaselessMatch r.lastname name
   | none => true)

/-- What `print_info` prints, as data: either the no-riders line, or one
entry per matching rider carrying `idx + 1` (the 1-based rank inside the
ranked-and-filtered list), the rider, and `riders.len()` (the size of the
ranked-and-filtered list). -/
inductive InfoOutput where
  | noRiders
  | lines (entries : List (Nat × Rider × Nat))
deriving DecidableEq, Repr

/-- `Bikemonkey::print_info` (lines 257–301) downstream of `filter_riders`:
`ranked` is the ranked-and-filtered list; the enumerated list is filtered by
the name-matching closure, an empty result prints the no-riders line, and
otherwise each retained `(idx, rider)` pair is printed with rank `idx + 1`
and the total `ranked.length`. -/
def print_info_output (opts : FilterOptions) (ranked : List Rider) : InfoOutput :=
  let ms := ranked.enum.filter fun p => nameMatchesFilter opts p.2
  if ms.isEmpty then .noRiders
  else .lines (ms.map fun p => (p.1 + 1, p.2, ranked.length))

/-- Criteria with every optional field absent. -/
def noFilter : FilterOptions := ⟨none, none, false, none, none⟩

/-- A raw record with the six fields the extractor reads. -/
def jrec (fn ln t route : String) (bib : Int) (id : String) : JValue :=
  JValue.obj
    [(str "firstname", JValue.strv (str fn)),
     (str "lastname", JValue.strv (str ln)),
     (str "elapsedtime", JValue.strv (str t)),
     (str "route", JValue.strv (str route)),
     (str "bib", JValue.num bib),
     (str "_id", JValue.strv (str id))]

def vGood : JValue := jrec "Ann" "Lee" "01:00:00" "PICCOLO" 7 "a1"

def vGood2 : JValue := jrec "Ben" "Kim" "02:00:00" "MEDIO Female" 8 "a2"

def vFam : JValue := jrec "Cal" "Roe" "01:30:00" "FAMILY Fun Ride" 9 "a3"

def vGran : JValue := jrec "Dot" "Poe" "01:15:00" "GRAN" 10 "a4"

def riderGood : Rider :=
  ⟨str "Ann", str "Lee", 3600, str "01:00:00", Gender.Male, Course.Piccollo,
   false, false, 7, str "a1"⟩

def riderGood2 : Rider :=
  ⟨str "Ben", str "Kim", 7200, str "02:00:00", Gender.Female, Course.Medio,
   false, false, 8, str "a2"⟩

/-- Three riders with elapsed times 01:02:03, 00:59:00, 01:02:03, in that
arrival order (the spec's end-to-end ranking example). -/
def riderA1 : Rider :=
  ⟨str "Ada", str "One", 3723, str "01:02:03", Gender.Male, Course.Piccollo,
   false, false, 1, str "id1"⟩

def riderA2 : Rider :=
  ⟨str "Bea", str "Two", 3540, str "00:59:00", Gender.Male, Course.Piccollo,
   false, false, 2, str "id2"⟩

def riderA3 : Rider :=
  ⟨str "Cai", str "Three", 3723, str "01:02:03", Gender.Male, Course.Piccollo,
   false, false, 3, str "id3"⟩

/-- C2: route classification is NOT total: the `GRAN` arm of `parse_course`
reads `s[1]` unconditionally, so the single-token route string `"GRAN"`
(which splits to the one-element token vector `["GRAN"]`) hits an
out-of-bounds index and panics, and the panic is reachable from a raw
record whose `route` field is `"GRAN"`. -/
theorem C2_gran_panics :
    rsplit ' ' (str "GRAN") = [str "GRAN"] ∧
    parse_course [str "GRAN"] = PResult.panic "index out of bounds" ∧
    Rider.from_value vGran = PResult.panic "index out of bounds" := by
  decide

/-- C3: the five route-classifier test vectors of the spec, evaluated on
`parse_course`: the three accepted routes produce exactly the stated
`(course, willowCreek, fortRoss, gender)` tuples, `"FAMILY Fun Ride"` is
rejected (the family error, never an `ok`), and `"IL REGNO"` fails with the
malformed-route error. -/
theorem C3_route_vectors :
    parse_course (rsplit ' ' (str "IL REGNO Male"))
      = PResult.ok (Course.IlRegno, false, false, Gender.Male) ∧
    parse_course (rsplit ' ' (str "PICCOLO"))
      = PResult.ok (Course.Piccollo, false, false, Gender.Male) ∧
    parse_course (rsplit ' ' (str "GRAN Fort Ross WC Female"))
      = PResult.ok (Course.Gran, true, true, Gender.Female) ∧
    parse_course (rsplit ' ' (str "FAMILY Fun Ride"))
      = PResult.err "don't deal with families" ∧
    parse_course (rsplit ' ' (str "IL REGNO")) = PResult.err "bad route" :=
  ⟨by decide, by decide, by decide, by decide, by decide⟩

/-- C4 (amended): whenever splitting on `:` and discarding components that
do not parse as `u64` leaves exactly `[h, m, sec]`, `parse_duration`
returns `(h*3600 + m*60 + sec) % 2^64` — the sum under wrapping `u64`
arithmetic, which equals `h*3600 + m*60 + sec` whenever that value fits in
a `u64` (every real `HH:MM:SS` time); out-of-range minutes or seconds are
accepted arithmetically.  Any other component count fails with the
malformed-duration error. -/
theorem C4_duration (s : Str) :
    (∀ h m sec : Nat, (rsplit ':' s).filterMap parseU64 = [h, m, sec] →
      parse_duration s = PResult.ok ((h * 3600 + m * 60 + sec) % 2 ^ 64)) ∧
    (((rsplit ':' s).filterMap parseU64).length ≠ 3 →
      parse_duration s = PResult.err "bad duration") := by
  constructor
  · intro h m sec heq
    have e1 : parse_duration s =
        PResult.ok ((((h * 60 % 2 ^ 64) * 60 % 2 ^ 64 + m * 60 % 2 ^ 64)
          % 2 ^ 64 + sec) % 2 ^ 64) := by
      unfold parse_duration
      rw [heq]
      rfl
    rw [e1]
    congr 1
    omega
  · intro hne
    unfold parse_duration
    rw [if_neg hne]

/-- C4, counterexample to the claim as stated: with `u64::MAX` hours the
components filter to exactly three integers, but the wrapping `u64`
arithmetic of the source makes `parse_duration` return
`2^64 - 3600` seconds, not `h*3600 + m*60 + s`. -/
theorem C4_counterexample :
    (rsplit ':' (str "18446744073709551615:0:0")).filterMap parseU64
      = [18446744073709551615, 0, 0] ∧
    parse_duration (str "18446744073709551615:0:0")
      = PResult.ok 18446744073709548016 ∧
    18446744073709548016 ≠ 18446744073709551615 * 3600 + 0 * 60 + 0 :=
  ⟨by decide, by decide, by decide⟩

theorem C4_witness :
    parse_duration (str "01:02:03") = PResult.ok ((1 * 3600 + 2 * 60 + 3) % 2 ^ 64) :=
  (C4_duration (str "01:02:03")).1 1 2 3 (by decide)

/-- C5: every token vector whose first token is `"FAMILY"` is rejected by
`parse_course` with the family error — a recoverable error value, never a
success — so no record with a family course is ever constructed (indeed
`Course` has no family variant at all). -/
theorem C5_family_rejected :
    (∀ rest : List Str, parse_course (str "FAMILY" :: rest)
        = PResult.err "don't deal with families") ∧
    (∀ (toks : List Str) (res : Course × Bool × Bool × Gender),
      toks.head? = some (str "FAMILY") → parse_course toks ≠ PResult.ok res) := by
  constructor
  · intro rest
    rfl
  · intro toks res hh
    cases toks with
    | nil => simp at hh
    | cons t ts =>
      have ht : t = str "FAMILY" := by simpa using hh
      subst ht
      intro hcontra
      rw [show parse_course (str "FAMILY" :: ts)
            = PResult.err "don't deal with families" from rfl] at hcontra
      exact PResult.noConfusion hcontra

theorem C5_witness :
    parse_course [str "FAMILY"] ≠ PResult.ok (Course.Gran, false, false, Gender.Male) :=
  C5_family_rejected.2 [str "FAMILY"] (Course.Gran, false, false, Gender.Male) rfl

/-- C6: after course and sub-event tokens are consumed, the remaining token
decides the gender: `"Male"` or no remaining token gives `Male`, `"Female"`
gives `Female`, and any other remaining token fails with the bad-gender
error; absence of a marker is never an error.  The closed conjuncts show
the same behavior through `parse_course` end to end. -/
theorem C6_gender :
    genderOf none = PResult.ok Gender.Male ∧
    genderOf (some (str "Male")) = PResult.ok Gender.Male ∧
    genderOf (some (str "Female")) = PResult.ok Gender.Female ∧
    (∀ t : Str, t ≠ str "Male" → t ≠ str "Female" →
      genderOf (some t) = PResult.err "bad gender") ∧
    parse_course (rsplit ' ' (str "MEDIO"))
      = PResult.ok (Course.Medio, false, false, Gender.Male) ∧
    parse_course (rsplit ' ' (str "MEDIO Female"))
      = PResult.ok (Course.Medio, false, false, Gender.Female) ∧
    parse_course (rsplit ' ' (str "MEDIO WC"))
      = PResult.ok (Course.Medio, true, false, Gender.Male) ∧
    parse_course (rsplit ' ' (str "MEDIO WC Banana")) = PResult.err "bad gender" :=
  ⟨rfl, by decide, by decide,
   fun t h1 h2 => by
     show (if t = str "Male" then PResult.ok Gender.Male
           else if t = str "Female" then PResult.ok Gender.Female
           else PResult.err "bad gender") = PResult.err "bad gender"
     rw [if_neg h1, if_neg h2],
   by decide, by decide, by decide, by decide⟩

theorem C6_witness : genderOf (some (str "Banana")) = PResult.err "bad gender" :=
  C6_gender.2.2.2.1 (str "Banana") (by decide) (by decide)

/-- C7: a raw record whose first-name and last-name fields are both present
as text and both empty is rejected by `Rider::from_value` with the no-name
error, whatever every other field holds (the check precedes every other
field read). -/
theorem C7_empty_names (v : JValue)
    (hf : (JValue.index v (str "firstname")).as_str = some [])
    (hl : (JValue.index v (str "lastname")).as_str = some []) :
    Rider.from_value v = PResult.err "No riders with no name!" := by
  unfold Rider.from_value
  rw [hf, hl]
  rfl

def vNoName : JValue := jrec "" "" "01:00:00" "PICCOLO" 7 "z1"

theorem C7_witness : Rider.from_value vNoName = PResult.err "No riders with no name!" :=
  C7_empty_names vNoName (by decide) (by decide)

/-- C8: filtering is a pure selection: every admissible output of
`filter_riders` is no longer than the catalog, every record in it passes
the present course-set and gender criteria, every catalog record passing
the criteria appears in it, and it is sorted by elapsed time ascending. -/
theorem C8_filter_selection (riders : List Rider) (opts : FilterOptions)
    (out : List Rider) (h : IsFilterRidersOutput riders opts out) :
    out.length ≤ riders.length ∧
    (∀ r ∈ out, ∀ cs, opts.courses = some cs → r.course ∈ cs) ∧
    (∀ r ∈ out, ∀ g, opts.gender = some g → r.gender = g) ∧
    (∀ r ∈ riders, riderPassesFilter opts r = true → r ∈ out) ∧
    List.Sorted (fun a b => a.elapsedtime ≤ b.elapsedtime) out := by
  obtain ⟨hp, hs⟩ := h
  have hmem : ∀ r : Rider, r ∈ out ↔ r ∈ filter_riders_retained riders opts :=
    fun r => hp.mem_iff.symm
  have hpass : ∀ r ∈ out, riderPassesFilter opts r = true := by
    intro r hr
    simpa using (List.mem_filter.1 ((hmem r).1 hr)).2
  refine ⟨?_, ?_, ?_, ?_, hs⟩
  · calc out.length = (filter_riders_retained riders opts).length := hp.length_eq.symm
      _ ≤ riders.length := List.length_filter_le _ _
  · intro r hr cs hcs
    have h2 := hpass r hr
    rw [riderPassesFilter, hcs, Bool.and_eq_true] at h2
    simpa using h2.1
  · intro r hr g hg
    have h2 := hpass r hr
    rw [riderPassesFilter, hg, Bool.and_eq_true] at h2
    simpa using h2.2
  · intro r hr hpassr
    exact (hmem r).2 (List.mem_filter.2 ⟨hr, by simpa using hpassr⟩)

def genderFilter : FilterOptions :=
  ⟨some [Course.Medio], some Gender.Female, false, none, none⟩

theorem C8_witness :
    ([riderGood2] : List Rider).length ≤ ([riderGood, riderGood2] : List Rider).length :=
  (C8_filter_selection [riderGood, riderGood2] genderFilter [riderGood2] (by decide)).1

/-- C10: per-record extraction failures are NOT always isolated.  A record
that fails recoverably (the family route) is dropped and the surviving
records keep their arrival order, but a record whose route is the single
token `"GRAN"` panics during extraction and aborts the whole batch instead
of being dropped. -/
theorem C10_batch :
    collectRiders [vGood, vFam, vGood2] = PResult.ok [riderGood, riderGood2] ∧
    collectRiders [vGood, vGran, vGood2] = PResult.panic "index out of bounds" := by
  decide

/-- C1, counterexample: the sort in `filter_riders` is `sort_unstable_by_key`,
whose contract permits reordering equal keys, so the ranked output of the
spec's three-record example is not forced to keep the two 01:02:03 records
in arrival order: `[riderA2, riderA3, riderA1]` is also an admissible
output, refuting the claimed unique stable order. -/
theorem C1_counterexample :
    ¬ (∀ out : List Rider,
        IsFilterRidersOutput [riderA1, riderA2, riderA3] noFilter out →
        out = [riderA2, riderA1, riderA3]) := by
  intro hclaim
  exact absurd (hclaim [riderA2, riderA3, riderA1] ⟨by decide, by decide⟩) (by decide)

/-- C1 (amended): every admissible ranking of the three-record example puts
the 00:59:00 record (`riderA2`) first and the two tied 01:02:03 records in
the remaining two positions in SOME order — the code sorts by elapsed time
ascending but, using an unstable sort, does not guarantee arrival order for
the tie.  The display times parse to the tied and untied durations as
claimed. -/
theorem C1_amended (out : List Rider)
    (h : IsFilterRidersOutput [riderA1, riderA2, riderA3] noFilter out) :
    out.head? = some riderA2 ∧
    (out = [riderA2, riderA1, riderA3] ∨ out = [riderA2, riderA3, riderA1]) ∧
    riderA1.elapsedtime = riderA3.elapsedtime ∧
    parse_duration (str "01:02:03") = PResult.ok 3723 ∧
    parse_duration (str "00:59:00") = PResult.ok 3540 := by
  obtain ⟨hp, hs⟩ := h
  have hp3 : List.Perm [riderA1, riderA2, riderA3] out := by
    have e : filter_riders_retained [riderA1, riderA2, riderA3] noFilter
        = [riderA1, riderA2, riderA3] := by decide
    rwa [e] at hp
  have hlen : out.length = 3 := by simpa using hp3.length_eq.symm
  rcases out with _ | ⟨x, out⟩
  · simp at hlen
  rcases out with _ | ⟨y, out⟩
  · simp at hlen
  rcases out with _ | ⟨z, out⟩
  · simp at hlen
  rcases out with _ | ⟨w, out⟩
  case cons => simp at hlen
  have hx : x ∈ [riderA1, riderA2, riderA3] := hp3.mem_iff.2 (by simp)
  have hy : y ∈ [riderA1, riderA2, riderA3] := hp3.mem_iff.2 (by simp)
  have hz : z ∈ [riderA1, riderA2, riderA3] := hp3.mem_iff.2 (by simp)
  simp only [List.mem_cons, List.not_mem_nil, or_false] at hx hy hz
  rcases hx with hx | hx | hx <;> subst hx <;>
    rcases hy with hy | hy | hy <;> subst hy <;>
      rcases hz with hz | hz | hz <;> subst hz <;>
        first
          | exact absurd hp3 (by decide)
          | exact absurd hs (by decide)
          | exact ⟨rfl, by decide, by decide, by decide, by decide⟩

theorem C1_witness :
    ([riderA2, riderA1, riderA3] : List Rider).head? = some riderA2 :=
  (C1_amended [riderA2, riderA1, riderA3] ⟨by decide, by decide⟩).1

def riderMaria : Rider :=
  ⟨str "Maria", str "Diaz", 3600, str "01:00:00", Gender.Female, Course.Gran,
   false, false, 4, str "id4"⟩

def mariaSearch : FilterOptions := ⟨none, none, false, some (str "marÍa"), none⟩

/-- C9, counterexample: canonical caseless matching erases case but not
accents, so the search term `"marÍa"` does NOT match a stored `"Maria"`:
with a catalog whose only (ranked and retained) record has first name
`"Maria"`, that search prints the no-riders outcome instead of a match. -/
theorem C9_counterexample :
    canonicalCaselessMatch (str "Maria") (str "marÍa") = false ∧
    IsFilterRidersOutput [riderMaria] mariaSearch [riderMaria] ∧
    print_info_output mariaSearch [riderMaria] = InfoOutput.noRiders :=
  ⟨by decide, ⟨by decide, by decide⟩, by decide⟩

theorem enumFrom_filter_sound (p : Rider → Bool) :
    ∀ (l : List Rider) (n : Nat) (e : Nat × Rider),
      e ∈ (List.enumFrom n l).filter (fun q => p q.2) →
      n ≤ e.1 ∧ l.get? (e.1 - n) = some e.2 ∧ p e.2 = true := by
  intro l
  induction l with
  | nil =>
    intro n e he
    simp [List.enumFrom] at he
  | cons a t ih =>
    intro n e he
    rw [List.enumFrom_cons, List.filter_cons] at he
    by_cases hpa : p a = true
    · rw [if_pos (by simpa using hpa)] at he
      rcases List.mem_cons.1 he with he | he
      · subst he
        exact ⟨Nat.le_refl n, by simp, hpa⟩
      · obtain ⟨h1, h2, h3⟩ := ih (n + 1) e he
        refine ⟨by omega, ?_, h3⟩
        rw [show e.1 - n = (e.1 - (n + 1)) + 1 by omega, List.get?_cons_succ]
        exact h2
    · rw [if_neg (by simpa using hpa)] at he
      obtain ⟨h1, h2, h3⟩ := ih (n + 1) e he
      refine ⟨by omega, ?_, h3⟩
      rw [show e.1 - n = (e.1 - (n + 1)) + 1 by omega, List.get?_cons_succ]
      exact h2

theorem enumFrom_filter_complete (p : Rider → Bool) :
    ∀ (l : List Rider) (n : Nat) (r : Rider), r ∈ l → p r = true →
      ∃ e ∈ (List.enumFrom n l).filter (fun q => p q.2), e.2 = r := by
  intro l
  induction l with
  | nil =>
    intro n r hr
    simp at hr
  | cons a t ih =>
    intro n r hr hpr
    rw [List.enumFrom_cons, List.filter_cons]
    rcases List.mem_cons.1 hr with rfl | hr
    · refine ⟨(n, r), ?_, rfl⟩
      rw [if_pos (by simpa using hpr)]
      exact List.mem_cons_self _ _
    · obtain ⟨e, he, h2⟩ := ih (n + 1) r hr hpr
      refine ⟨e, ?_, h2⟩
      by_cases hpa : p a = true
      · rw [if_pos (by simpa using hpa)]
        exact List.mem_cons_of_mem _ he
      · rw [if_neg (by simpa using hpa)]
        exact he

theorem enumFrom_filter_isEmpty (p : Rider → Bool) (l : List Rider) (n : Nat) :
    ((List.enumFrom n l).filter (fun q => p q.2)).isEmpty = true ↔
      ∀ r ∈ l, p r = false := by
  constructor
  · intro hemp r hr
    by_contra hne
    have hpr : p r = true := by
      revert hne
      cases p r <;> simp
    obtain ⟨e, he, _⟩ := enumFrom_filter_complete p l n r hr hpr
    rw [List.isEmpty_iff.1 hemp] at he
    simp at he
  · intro hall
    rw [List.isEmpty_iff]
    by_contra hne
    obtain ⟨e, he⟩ := List.exists_mem_of_ne_nil _ hne
    obtain ⟨_, h2, h3⟩ := enumFrom_filter_sound p l n e he
    have : e.2 ∈ l := List.get?_mem h2
    rw [hall e.2 this] at h3
    exact Bool.noConfusion h3

/-- C9 (amended): with a name search present, `print_info` selects from the
already-ranked sequence exactly the records whose stored names canonically-
caselessly match every given search term; an empty selection yields the
distinct no-riders outcome (never an error); each reported entry carries
its 1-based rank within the ranked-and-filtered sequence and that
sequence's total size.  The match is case-insensitive but accent-SENSITIVE:
`"marÍa"` matches a stored `"María"` (not a stored `"Maria"`). -/
theorem C9_info (opts : FilterOptions) (ranked : List Rider) :
    (print_info_output opts ranked = InfoOutput.noRiders ↔
      ∀ r ∈ ranked, nameMatchesFilter opts r = false) ∧
    (∀ es, print_info_output opts ranked = InfoOutput.lines es →
      (∀ e ∈ es, e.2.2 = ranked.length ∧ 1 ≤ e.1 ∧ e.1 ≤ ranked.length ∧
        ranked.get? (e.1 - 1) = some e.2.1 ∧ nameMatchesFilter opts e.2.1 = true) ∧
      (∀ r ∈ ranked, nameMatchesFilter opts r = true → ∃ e ∈ es, e.2.1 = r)) ∧
    canonicalCaselessMatch (str "María") (str "marÍa") = true := by
  by_cases hemp : ((List.enumFrom 0 ranked).filter
      (fun q => nameMatchesFilter opts q.2)).isEmpty = true
  · have hout : print_info_output opts ranked = InfoOutput.noRiders := by
      simp only [print_info_output]
      rw [show ranked.enum = List.enumFrom 0 ranked from rfl, if_pos hemp]
    refine ⟨?_, ?_, by decide⟩
    · rw [hout]
      exact ⟨fun _ => (enumFrom_filter_isEmpty _ ranked 0).1 hemp, fun _ => rfl⟩
    · intro es hes
      rw [hout] at hes
      exact InfoOutput.noConfusion hes
  · have hout : print_info_output opts ranked =
        InfoOutput.lines (((List.enumFrom 0 ranked).filter
          (fun q => nameMatchesFilter opts q.2)).map
            (fun q => (q.1 + 1, q.2, ranked.length))) := by
      simp only [print_info_output]
      rw [show ranked.enum = List.enumFrom 0 ranked from rfl, if_neg hemp]
    refine ⟨?_, ?_, by decide⟩
    · rw [hout]
      constructor
      · intro hcontra
        exact absurd hcontra (by simp)
      · intro hall
        exact absurd ((enumFrom_filter_isEmpty _ ranked 0).2 hall) hemp
    · intro es hes
      rw [hout] at hes
      have hes2 : es = ((List.enumFrom 0 ranked).filter
          (fun q => nameMatchesFilter opts q.2)).map
            (fun q => (q.1 + 1, q.2, ranked.length)) := by
        injection hes with h
        exact h.symm
      subst hes2
      constructor
      · intro e he
        obtain ⟨q, hq, hfq⟩ := List.mem_map.1 he
        obtain ⟨h0, hget, hp⟩ := enumFrom_filter_sound _ ranked 0 q hq
        subst hfq
        refine ⟨rfl, by omega, ?_, ?_, hp⟩
        · obtain ⟨hlt, _⟩ := List.get?_eq_some.1 (by simpa using hget)
          omega
        · simpa using hget
      · intro r hr hpr
        obtain ⟨q, hq, hq2⟩ := enumFrom_filter_complete _ ranked 0 r hr hpr
        exact ⟨(q.1 + 1, q.2, ranked.length), List.mem_map.2 ⟨q, hq, rfl⟩, hq2⟩

theorem C9_witness : canonicalCaselessMatch (str "María") (str "marÍa") = true :=
  (C9_info noFilter []).2.2
